import Mathlib

/-!
Verification of the core real-time audio pipeline of the Husher repository
(`Desktop/Hush/src`): the lock-free SPSC `RingBuffer`, the `PolyphaseDecimator`,
the `PostProcessor` hit-detection state machine and the `MidiEventHandler`.

Each C++ component is shallowly embedded: `float`/`double` become `ℚ`,
`int`/`int32_t` become `ℤ`, `size_t`/`uint8_t`/`uint64_t` become `ℕ` (with
wrap-around made explicit where the C++ arithmetic can wrap), buffers become
lists or index functions, and every member function becomes a pure function
from state to state paired with its observable result.  SIMD convolution paths,
logging, timing and the floating-point averaging statistics are not modelled;
control flow and all data the public API exposes are.
-/

namespace KhDetector

/-! ### RingBuffer (src/RingBuffer.h)

`RingBuffer<T, Size>` keeps a `std::array<T, Size>` plus a read and a write
index.  `Size` is statically asserted to be a power of two; `increment` masks
with `Size - 1`.  The element array is modelled as a total function `ℕ → α`
(only indices below `Size` are ever accessed); `size()` subtracts the indices
in `size_t` arithmetic, so the wrap modulo `2 ^ 64` is written out explicitly.
-/

structure RingBuffer (α : Type) (Size : ℕ) where
  buffer : ℕ → α
  readIndex : ℕ
  writeIndex : ℕ

namespace RingBuffer

/-- Embedding of `increment`: `(index + 1) & (Size - 1)`. -/
def increment (Size : ℕ) (index : ℕ) : ℕ := (index + 1) &&& (Size - 1)

variable {α : Type} {Size : ℕ}

/-- Embedding of `push` (copy overload; the move overload is identical).
Returns the `bool` result together with the successor state. -/
def push (s : RingBuffer α Size) (item : α) : Bool × RingBuffer α Size :=
  let currentWrite := s.writeIndex
  let nextWrite := increment Size currentWrite
  if nextWrite = s.readIndex then
    (false, s)
  else
    (true, { s with
              buffer := fun j => if j = currentWrite then item else s.buffer j,
              writeIndex := nextWrite })

/-- Embedding of `pop`: the popped value is returned as an `Option` instead of
through an out-parameter. -/
def pop (s : RingBuffer α Size) : Option α × RingBuffer α Size :=
  let currentRead := s.readIndex
  if currentRead = s.writeIndex then
    (none, s)
  else
    (some (s.buffer currentRead), { s with readIndex := increment Size currentRead })

/-- Embedding of `size`: `(write - read) & (Size - 1)` in `size_t` arithmetic;
the unsigned subtraction wraps modulo `2 ^ 64`. -/
def size (s : RingBuffer α Size) : ℕ :=
  ((s.writeIndex + 2 ^ 64 - s.readIndex) % 2 ^ 64) &&& (Size - 1)

/-- Embedding of `capacity`: `Size - 1` (one slot is reserved). -/
def capacity (Size : ℕ) : ℕ := Size - 1

/-- A freshly constructed ring buffer: both indices zero, array contents
indeterminate (the C++ array is default-initialized), hence a parameter. -/
def initial (b0 : ℕ → α) : RingBuffer α Size :=
  { buffer := b0, readIndex := 0, writeIndex := 0 }

/-- Single-threaded operations driven against the buffer. -/
inductive Op (α : Type) where
  | push (x : α)
  | pop
deriving DecidableEq

/-- Observations produced by a run: the boolean result of each `push` and the
optional value of each `pop`. -/
inductive Obs (α : Type) where
  | pushed (ok : Bool)
  | popped (v : Option α)
deriving DecidableEq

/-- Run a list of operations against the ring buffer, collecting observations. -/
def runOps (s : RingBuffer α Size) : List (Op α) → List (Obs α)
  | [] => []
  | Op.push x :: rest =>
      let r := push s x
      Obs.pushed r.1 :: runOps r.2 rest
  | Op.pop :: rest =>
      let r := pop s
      Obs.popped r.1 :: runOps r.2 rest

/-- Specification model: a plain FIFO queue of bounded capacity.  `push`
appends at the tail unless the queue already holds `cap` elements; `pop`
removes at the head. -/
def modelPush (cap : ℕ) (q : List α) (x : α) : Bool × List α :=
  if q.length = cap then (false, q) else (true, q ++ [x])

/-- Specification model of `pop`: remove at the head. -/
def modelPop (q : List α) : Option α × List α :=
  match q with
  | [] => (none, [])
  | x :: xs => (some x, xs)

/-- Run a list of operations against the FIFO model. -/
def runModel (cap : ℕ) (q : List α) : List (Op α) → List (Obs α)
  | [] => []
  | Op.push x :: rest =>
      let r := modelPush cap q x
      Obs.pushed r.1 :: runModel cap r.2 rest
  | Op.pop :: rest =>
      let r := modelPop q
      Obs.popped r.1 :: runModel cap r.2 rest

/-- Abstraction function: the queue contents held by a ring-buffer state, read
from `readIndex` for `size` steps around the circular array. -/
def abstractQueue (s : RingBuffer α Size) : List α :=
  (List.range (size s)).map fun j => s.buffer ((s.readIndex + j) % Size)

/-- Index invariant maintained by all single-threaded runs: both indices stay
below `Size` (they start at zero and are only ever replaced by masked
increments). -/
def Inv (s : RingBuffer α Size) : Prop :=
  s.readIndex < Size ∧ s.writeIndex < Size

end RingBuffer

/-! ### PolyphaseDecimator (src/PolyphaseDecimator.h)

`PolyphaseDecimator<M, L>` keeps a circular history `inputBuffer_` of length
`L`, a write position `bufferIndex_`, and `M` polyphase sub-filter coefficient
vectors of length `L / M`.  The constructor designs the coefficients with a
windowed-sinc formula over `float` transcendentals; the processing loops treat
them opaquely, so the state is parametrized by the coefficient table.  Only the
scalar convolution reference path is modelled (the SIMD paths are
numerically-equivalent alternatives of the same sum). -/

structure PolyphaseDecimator where
  decimationFactor : ℕ
  filterLength : ℕ
  polyphaseFilters : List (List ℚ)
  inputBuffer : List ℚ
  bufferIndex : ℕ

namespace PolyphaseDecimator

/-- Embedding of `kPhaseLength = FilterLength / DecimationFactor`. -/
def phaseLength (d : PolyphaseDecimator) : ℕ := d.filterLength / d.decimationFactor

/-- Embedding of `computeConvolutionScalar`: dot product of the sub-filter with
the most recent `kPhaseLength` history entries, most-recent-first.  The C++
index `(bufferIndex_ - 1 - i + FilterLength) % FilterLength` is computed in
`int` and is nonnegative there; it is rendered as
`(bufferIndex_ + FilterLength - (1 + i)) % FilterLength`. -/
def computeConvolutionScalar (d : PolyphaseDecimator) (coeffs : List ℚ) : ℚ :=
  (List.range (phaseLength d)).foldl
    (fun sum i =>
      sum + d.inputBuffer.getD
              ((d.bufferIndex + d.filterLength - (1 + i)) % d.filterLength) 0
            * coeffs.getD i 0)
    0

/-- Embedding of `computeFilteredSample`: select the sub-filter for the current
phase and convolve. -/
def computeFilteredSample (d : PolyphaseDecimator) : ℚ :=
  let phase := (d.decimationFactor - 1) - d.bufferIndex % d.decimationFactor
  computeConvolutionScalar d (d.polyphaseFilters.getD phase [])

/-- One iteration of the input loop body shared by `processMono` and
`processStereoToMono`: write the sample into the circular history and advance
the index modulo `FilterLength`. -/
def pushSample (d : PolyphaseDecimator) (x : ℚ) : PolyphaseDecimator :=
  { d with
      inputBuffer := d.inputBuffer.set d.bufferIndex x,
      bufferIndex := (d.bufferIndex + 1) % d.filterLength }

/-- Embedding of the `processMono` loop: `i` is the loop counter of the current
call; an output sample is produced whenever
`i % DecimationFactor == DecimationFactor - 1`. -/
def processMonoAux (d : PolyphaseDecimator) (i : ℕ) :
    List ℚ → PolyphaseDecimator × List ℚ
  | [] => (d, [])
  | x :: rest =>
    let d1 := pushSample d x
    if i % d.decimationFactor = d.decimationFactor - 1 then
      let y := computeFilteredSample d1
      let r := processMonoAux d1 (i + 1) rest
      (r.1, y :: r.2)
    else
      processMonoAux d1 (i + 1) rest

/-- Embedding of `processMono`: the loop counter starts at `0` on every call. -/
def processMono (d : PolyphaseDecimator) (input : List ℚ) :
    PolyphaseDecimator × List ℚ :=
  processMonoAux d 0 input

/-- Embedding of the `processStereoToMono` loop over paired samples: each pair
is averaged (`(left + right) * 0.5`) and then fed through the same pipeline. -/
def processStereoAux (d : PolyphaseDecimator) (i : ℕ) :
    List (ℚ × ℚ) → PolyphaseDecimator × List ℚ
  | [] => (d, [])
  | p :: rest =>
    let monoSample := (p.1 + p.2) * (1 / 2)
    let d1 := pushSample d monoSample
    if i % d.decimationFactor = d.decimationFactor - 1 then
      let y := computeFilteredSample d1
      let r := processStereoAux d1 (i + 1) rest
      (r.1, y :: r.2)
    else
      processStereoAux d1 (i + 1) rest

/-- Embedding of `processStereoToMono` on equal-length channel lists. -/
def processStereoToMono (d : PolyphaseDecimator) (leftInput rightInput : List ℚ) :
    PolyphaseDecimator × List ℚ :=
  processStereoAux d 0 (leftInput.zip rightInput)

end PolyphaseDecimator

/-! ### PostProcessor (src/PostProcessor.{h,cpp})

`PostProcessor` median-filters a confidence stream and runs the hit-detection
state machine.  Note the `PostProcessor.h` shipped in the tree is stale: its
`Config` declares a single `hysteresisLower` field while `PostProcessor.cpp`,
the tests and the demos all use `hysteresisLow`/`hysteresisHigh`; the embedding
follows the `.cpp` (the semantics are entirely determined by it).  Callbacks
are modelled as the list of `hitState` booleans passed to `mHitCallback`, in
order; the averaging statistics (`updateStatistics`) and timestamps are not
modelled, the counters the control flow touches are. -/

namespace PostProcessor

/-- Embedding of `PostProcessor::Config` (fields as used by the `.cpp`). -/
structure Config where
  medianFilterSize : ℤ
  threshold : ℚ
  hysteresisLow : ℚ
  hysteresisHigh : ℚ
  enableHysteresis : Bool
  minHitDuration : ℤ
  maxHitDuration : ℤ
  enableDebounce : Bool
  debounceFrames : ℤ
deriving DecidableEq

/-- Embedding of `std::clamp(x, lo, hi)` for rationals. -/
def clampQ (x lo hi : ℚ) : ℚ := max lo (min x hi)

/-- Embedding of `validateConfig` (run by the constructor and `updateConfig`):
filter size forced odd and at least 3; thresholds clamped to `[0,1]`;
hysteresis bounds swapped when inverted and derived from the main threshold
when both are zero; duration and debounce minimums enforced. -/
def validateConfig (c : Config) : Config :=
  let m1 : ℤ := if c.medianFilterSize < 3 then 3 else c.medianFilterSize
  let m2 : ℤ := if m1 % 2 = 0 then m1 + 1 else m1
  let th : ℚ := clampQ c.threshold 0 1
  let lo0 : ℚ := clampQ c.hysteresisLow 0 1
  let hi0 : ℚ := clampQ c.hysteresisHigh 0 1
  let p1 : ℚ × ℚ :=
    if c.enableHysteresis = true ∧ hi0 < lo0 then (hi0, lo0) else (lo0, hi0)
  let p2 : ℚ × ℚ :=
    if c.enableHysteresis = true ∧ p1.1 = 0 ∧ p1.2 = 0 then (th * (8 / 10), th) else p1
  let minD : ℤ := max 1 c.minHitDuration
  let maxD : ℤ := max (minD + 1) c.maxHitDuration
  let deb : ℤ := max 0 c.debounceFrames
  { c with
      medianFilterSize := m2,
      threshold := th,
      hysteresisLow := p2.1,
      hysteresisHigh := p2.2,
      minHitDuration := minD,
      maxHitDuration := maxD,
      debounceFrames := deb }

/-- Mutable state of a `PostProcessor` (the fields of the class that the
modelled member functions read or write). -/
structure State where
  config : Config
  confidenceHistory : List ℚ
  historyIndex : ℕ
  historyFilled : Bool
  currentHitState : Bool
  hitFrameCount : ℤ
  debounceFrameCount : ℤ
  peakConfidenceInHit : ℚ
  hadHit : Bool
  lastSmoothedConfidence : ℚ
  enabled : Bool
  totalHits : ℕ
  falsePositives : ℕ
  debouncedHits : ℕ
deriving DecidableEq

/-- Embedding of the constructor: validate the config and zero-initialize the
history buffer of `medianFilterSize` entries. -/
def init (c : Config) : State :=
  let v := validateConfig c
  { config := v,
    confidenceHistory := List.replicate v.medianFilterSize.toNat 0,
    historyIndex := 0,
    historyFilled := false,
    currentHitState := false,
    hitFrameCount := 0,
    debounceFrameCount := 0,
    peakConfidenceInHit := 0,
    hadHit := false,
    lastSmoothedConfidence := 0,
    enabled := true,
    totalHits := 0,
    falsePositives := 0,
    debouncedHits := 0 }

/-- The history size as a natural number (`medianFilterSize` is at least 3
after validation). -/
def fsize (s : State) : ℕ := s.config.medianFilterSize.toNat

/-- Embedding of `applyMedianFilter`: with fewer than 3 samples return the most
recent raw entry; otherwise the `nth_element` median of the filled portion
(the value at sorted position `n / 2`, averaged with position `n / 2 - 1` when
`n` is even). -/
def applyMedianFilter (s : State) : ℚ :=
  if s.historyFilled = false ∧ s.historyIndex < 3 then
    s.confidenceHistory.getD ((s.historyIndex + fsize s - 1) % fsize s) 0
  else
    let sortBuffer :=
      if s.historyFilled = true then s.confidenceHistory
      else s.confidenceHistory.take s.historyIndex
    let n := sortBuffer.length
    let sorted := List.insertionSort (fun a b => a ≤ b) sortBuffer
    if n % 2 = 1 then
      sorted.getD (n / 2) 0
    else
      (sorted.getD (n / 2) 0 + sorted.getD (n / 2 - 1) 0) * (1 / 2)

/-- Embedding of `applyThreshold`: hysteresis uses the low bound while in a hit
and the high bound otherwise; else the single threshold. -/
def applyThreshold (s : State) (confidence : ℚ) : Bool :=
  if s.config.enableHysteresis = true then
    if s.currentHitState = true then decide (s.config.hysteresisLow ≤ confidence)
    else decide (s.config.hysteresisHigh ≤ confidence)
  else
    decide (s.config.threshold ≤ confidence)

/-- Embedding of `triggerHitStateChange`: store the new externally visible hit
state, bump the hit counter on a start, and invoke the callback (recorded as
one trace element). -/
def triggerHitStateChange (s : State) (newState : Bool) : State × List Bool :=
  if newState = true then
    ({ s with hadHit := true, totalHits := s.totalHits + 1 }, [true])
  else
    ({ s with hadHit := false }, [false])

/-- The three-way branch of `updateHitDetection` after the debounce handling. -/
def hitBranches (s : State) (sm : ℚ) (thresholdMet : Bool) : State × List Bool :=
  if thresholdMet = true ∧ s.currentHitState = false then
    ({ s with currentHitState := true, hitFrameCount := 1, peakConfidenceInHit := sm }, [])
  else if thresholdMet = true ∧ s.currentHitState = true then
    let s1 := { s with
                  hitFrameCount := s.hitFrameCount + 1,
                  peakConfidenceInHit := max s.peakConfidenceInHit sm }
    let r1 :=
      if s1.hitFrameCount = s1.config.minHitDuration ∧ s1.hadHit = false then
        triggerHitStateChange s1 true
      else (s1, [])
    let r2 :=
      if r1.1.config.maxHitDuration ≤ r1.1.hitFrameCount then
        let t := triggerHitStateChange r1.1 false
        ({ t.1 with
             currentHitState := false,
             debounceFrameCount :=
               if t.1.config.enableDebounce = true then t.1.config.debounceFrames else 0 },
         t.2)
      else (r1.1, [])
    (r2.1, r1.2 ++ r2.2)
  else if thresholdMet = false ∧ s.currentHitState = true then
    let s1 :=
      if s.hitFrameCount < s.config.minHitDuration then
        { s with falsePositives := s.falsePositives + 1 }
      else s
    let r := if s1.hadHit = true then triggerHitStateChange s1 false else (s1, [])
    ({ r.1 with
         currentHitState := false,
         debounceFrameCount :=
           if r.1.config.enableDebounce = true then r.1.config.debounceFrames else 0 },
     r.2)
  else
    (s, [])

/-- Embedding of `updateHitDetection`: decrement an active debounce window and
swallow threshold crossings during it, otherwise run the three-way branch. -/
def updateHitDetection (s : State) (sm : ℚ) : State × List Bool :=
  let thresholdMet := applyThreshold s sm
  if s.config.enableDebounce = true ∧ 0 < s.debounceFrameCount then
    let s1 := { s with debounceFrameCount := s.debounceFrameCount - 1 }
    if thresholdMet = true then
      ({ s1 with debouncedHits := s1.debouncedHits + 1 }, [])
    else
      hitBranches s1 sm thresholdMet
  else
    hitBranches s sm thresholdMet

/-- Embedding of `processConfidence`: pass-through when disabled; otherwise
clamp, insert into the circular history, median-filter, publish the smoothed
value and run hit detection.  Returns the new state, the returned smoothed
confidence and the callback trace of the call. -/
def processConfidence (s : State) (confidence : ℚ) : State × ℚ × List Bool :=
  if s.enabled = false then
    (s, confidence, [])
  else
    let c := clampQ confidence 0 1
    let hist := s.confidenceHistory.set s.historyIndex c
    let idx := (s.historyIndex + 1) % fsize s
    let filled := s.historyFilled || decide (idx = 0)
    let s1 := { s with confidenceHistory := hist, historyIndex := idx, historyFilled := filled }
    let sm := applyMedianFilter s1
    let s2 := { s1 with lastSmoothedConfidence := sm }
    let r := updateHitDetection s2 sm
    (r.1, sm, r.2)

/-- Driver operations: toggling `setEnabled` and feeding confidences. -/
inductive PPOp where
  | setEnabled (b : Bool)
  | process (confidence : ℚ)
deriving DecidableEq

/-- Run a list of operations, collecting the returned smoothed values of all
`process` calls and the concatenated callback trace. -/
def run (s : State) : List PPOp → State × List ℚ × List Bool
  | [] => (s, [], [])
  | PPOp.setEnabled b :: rest => run { s with enabled := b } rest
  | PPOp.process c :: rest =>
      let r := processConfidence s c
      let rr := run r.1 rest
      (rr.1, r.2.1 :: rr.2.1, r.2.2 ++ rr.2.2)

/-- Range invariant carried by every reachable `PostProcessor` state: all
history entries and the published smoothed confidence lie in `[0, 1]`. -/
def GoodState (s : State) : Prop :=
  (∀ x ∈ s.confidenceHistory, 0 ≤ x ∧ x ≤ 1) ∧
  0 ≤ s.lastSmoothedConfidence ∧ s.lastSmoothedConfidence ≤ 1

end PostProcessor

/-! ### MidiEventHandler (src/MidiEventHandler.{h,cpp})

`MidiEventHandler` turns hit-state transitions into note events.  The C++
returns events by pointer into an internal buffer; the embedding returns an
`Option MidiEvent` directly.  `uint8_t` fields become `ℕ`, the `int32_t`
sample offsets become `ℤ` (`mNoteOffScheduledAt` uses `-1` as the no-schedule
sentinel and is compared with `>= 0`), `uint64_t` timestamps become `ℕ`. -/

namespace MidiEventHandler

/-- Embedding of `MidiEventHandler::Config` with its header defaults. -/
structure Config where
  hitNote : ℕ := 45
  hitVelocity : ℕ := 127
  channel : ℕ := 0
  sendNoteOff : Bool := true
  noteOffDelay : ℤ := 100
  useHostTimeStamp : Bool := true
deriving DecidableEq

/-- Embedding of `isValidMidiNote`. -/
def isValidMidiNote (note : ℕ) : Bool := decide (note ≤ 127)

/-- Embedding of `isValidMidiVelocity`. -/
def isValidMidiVelocity (velocity : ℕ) : Bool := decide (velocity ≤ 127)

/-- Embedding of `isValidMidiChannel`. -/
def isValidMidiChannel (channel : ℕ) : Bool := decide (channel ≤ 15)

/-- The validation performed by both the constructor and `updateConfig`:
out-of-range fields are replaced by the documented defaults (note 45,
velocity 127, channel 0); nothing fails. -/
def validateMidiConfig (c : Config) : Config :=
  { c with
      hitNote := if isValidMidiNote c.hitNote then c.hitNote else 45,
      hitVelocity := if isValidMidiVelocity c.hitVelocity then c.hitVelocity else 127,
      channel := if isValidMidiChannel c.channel then c.channel else 0 }

/-- Embedding of `EventType` (the `ControlChange` member exists in the C++
enum but is never produced by the handler). -/
inductive EventType where
  | noteOn
  | noteOff
  | controlChange
deriving DecidableEq

/-- Embedding of `MidiEvent` (the `controller` field for CC events is never
written by the handler and is omitted). -/
structure MidiEvent where
  type : EventType
  channel : ℕ
  note : ℕ
  velocity : ℕ
  sampleOffset : ℤ
  hostTimeStamp : ℕ
deriving DecidableEq

/-- Embedding of the handler statistics counters. -/
structure Statistics where
  noteOnEvents : ℕ := 0
  noteOffEvents : ℕ := 0
  totalEvents : ℕ := 0
  lastEventTimeStamp : ℕ := 0
deriving DecidableEq

/-- Mutable state of a `MidiEventHandler`. -/
structure State where
  config : Config
  lastHitState : Bool
  noteIsOn : Bool
  noteOffScheduledAt : ℤ
  lastEventTimeStamp : ℕ
  stats : Statistics
deriving DecidableEq

/-- Embedding of the constructor: validate the config, all state idle. -/
def init (c : Config) : State :=
  { config := validateMidiConfig c,
    lastHitState := false,
    noteIsOn := false,
    noteOffScheduledAt := -1,
    lastEventTimeStamp := 0,
    stats := {} }

/-- Embedding of `updateConfig`: replace the config after validation. -/
def updateConfig (s : State) (c : Config) : State :=
  { s with config := validateMidiConfig c }

/-- Embedding of `updateStatistics`. -/
def updateStatistics (st : Statistics) (e : MidiEvent) : Statistics :=
  { st with
      totalEvents := st.totalEvents + 1,
      lastEventTimeStamp := e.hostTimeStamp,
      noteOnEvents := if e.type = EventType.noteOn then st.noteOnEvents + 1 else st.noteOnEvents,
      noteOffEvents := if e.type = EventType.noteOff then st.noteOffEvents + 1 else st.noteOffEvents }

/-- Embedding of `createEvent`: note-off events carry velocity 0, note-on the
configured velocity; the host timestamp is zeroed when disabled. -/
def createEvent (s : State) (t : EventType) (sampleOffset : ℤ) (hostTimeStamp : ℕ) :
    State × MidiEvent :=
  let e : MidiEvent :=
    { type := t,
      channel := s.config.channel,
      note := s.config.hitNote,
      velocity := if t = EventType.noteOn then s.config.hitVelocity else 0,
      sampleOffset := sampleOffset,
      hostTimeStamp := if s.config.useHostTimeStamp then hostTimeStamp else 0 }
  ({ s with lastEventTimeStamp := hostTimeStamp, stats := updateStatistics s.stats e }, e)

/-- Embedding of `processHitState`. -/
def processHitState (s : State) (hitState : Bool) (sampleOffset : ℤ) (hostTimeStamp : ℕ) :
    State × Option MidiEvent :=
  if hitState = s.lastHitState then
    (s, none)
  else
    let s0 := { s with lastHitState := hitState }
    if hitState = true ∧ s0.noteIsOn = false then
      let r := createEvent s0 EventType.noteOn sampleOffset hostTimeStamp
      ({ r.1 with noteIsOn := true }, some r.2)
    else if hitState = false ∧ s0.noteIsOn = true then
      if s0.config.sendNoteOff = true then
        if 0 < s0.config.noteOffDelay then
          ({ s0 with noteOffScheduledAt := sampleOffset + s0.config.noteOffDelay }, none)
        else
          let r := createEvent s0 EventType.noteOff sampleOffset hostTimeStamp
          ({ r.1 with noteIsOn := false }, some r.2)
      else
        ({ s0 with noteIsOn := false }, none)
    else
      (s0, none)

/-- Embedding of `processPendingEvents`. -/
def processPendingEvents (s : State) (currentSampleOffset : ℤ) : State × Option MidiEvent :=
  if 0 ≤ s.noteOffScheduledAt ∧ s.noteOffScheduledAt ≤ currentSampleOffset then
    let r := createEvent s EventType.noteOff currentSampleOffset s.lastEventTimeStamp
    ({ r.1 with noteIsOn := false, noteOffScheduledAt := -1 }, some r.2)
  else
    (s, none)

/-- Driver operations on the handler. -/
inductive MidiOp where
  | hitState (h : Bool) (sampleOffset : ℤ) (hostTimeStamp : ℕ)
  | pending (currentSampleOffset : ℤ)
deriving DecidableEq

/-- Run a list of operations, collecting all emitted events in order. -/
def runMidi (s : State) : List MidiOp → State × List MidiEvent
  | [] => (s, [])
  | MidiOp.hitState h off ts :: rest =>
      let r := processHitState s h off ts
      let rr := runMidi r.1 rest
      (rr.1, r.2.toList ++ rr.2)
  | MidiOp.pending cur :: rest =>
      let r := processPendingEvents s cur
      let rr := runMidi r.1 rest
      (rr.1, r.2.toList ++ rr.2)

/-- Count of false-to-true transitions a hit-state sequence presents to the
handler, starting from a given last-seen state (the handler records every
differing `hitState`, so the last-seen value after each call is the argument
of that call). -/
def hitStartsObserved (last : Bool) : List MidiOp → ℕ
  | [] => 0
  | MidiOp.hitState h _ _ :: rest =>
      (if h = true ∧ last = false then 1 else 0) + hitStartsObserved h rest
  | MidiOp.pending _ :: rest => hitStartsObserved last rest

/-- Number of note-on events in an emitted trace. -/
def countNoteOn (evs : List MidiEvent) : ℕ :=
  (evs.filter fun e => decide (e.type = EventType.noteOn)).length

/-- Number of note-off events in an emitted trace. -/
def countNoteOff (evs : List MidiEvent) : ℕ :=
  (evs.filter fun e => decide (e.type = EventType.noteOff)).length

end MidiEventHandler

namespace RingBuffer

/-- Helper: a value below `2 * n` reduces modulo `n` by at most one subtraction. -/
lemma mod_two_cases (x n : ℕ) (h : x < 2 * n) :
    (x < n ∧ x % n = x) ∨ (n ≤ x ∧ x % n = x - n) := by
  rcases lt_or_le x n with hx | hx
  · exact Or.inl ⟨hx, Nat.mod_eq_of_lt hx⟩
  · refine Or.inr ⟨hx, ?_⟩
    rw [Nat.mod_eq_sub_mod hx]
    exact Nat.mod_eq_of_lt (by omega)

section RingBufferLemmas

variable {α : Type} {Size k : ℕ}

lemma and_mask (hS : Size = 2 ^ k) (x : ℕ) : x &&& (Size - 1) = x % Size := by
  subst hS
  exact Nat.and_pow_two_sub_one_eq_mod x k

lemma size_dvd (hS : Size = 2 ^ k) (hk : k ≤ 64) : Size ∣ 2 ^ 64 := by
  subst hS
  exact pow_dvd_pow 2 hk

lemma size_pos (hS : Size = 2 ^ k) : 0 < Size := by
  subst hS
  positivity

lemma increment_eq (hS : Size = 2 ^ k) (i : ℕ) :
    increment Size i = (i + 1) % Size := and_mask hS (i + 1)

lemma increment_lt (hS : Size = 2 ^ k) (i : ℕ) : increment Size i < Size := by
  rw [increment_eq hS]
  exact Nat.mod_lt _ (size_pos hS)

lemma size_eq (hS : Size = 2 ^ k) (hk : k ≤ 64) (s : RingBuffer α Size)
    (hr : s.readIndex < Size) :
    size s = (s.writeIndex + Size - s.readIndex) % Size := by
  have hdvd : Size ∣ 2 ^ 64 := size_dvd hS hk
  have hle : Size ≤ 2 ^ 64 := Nat.le_of_dvd (by norm_num) hdvd
  obtain ⟨t, ht⟩ : Size ∣ 2 ^ 64 - Size := Nat.dvd_sub' hdvd dvd_rfl
  unfold size
  rw [and_mask hS, Nat.mod_mod_of_dvd _ hdvd]
  have hsplit : s.writeIndex + 2 ^ 64 - s.readIndex
      = s.writeIndex + Size - s.readIndex + (2 ^ 64 - Size) := by omega
  rw [hsplit, ht, Nat.add_mul_mod_self_left]

lemma size_lt (hS : Size = 2 ^ k) (hk : k ≤ 64) (s : RingBuffer α Size)
    (hr : s.readIndex < Size) : size s < Size := by
  rw [size_eq hS hk s hr]
  exact Nat.mod_lt _ (size_pos hS)

lemma write_eq_read_add_size (hS : Size = 2 ^ k) (hk : k ≤ 64) (s : RingBuffer α Size)
    (hr : s.readIndex < Size) (hw : s.writeIndex < Size) :
    (s.readIndex + size s) % Size = s.writeIndex := by
  rw [size_eq hS hk s hr, Nat.add_mod_mod]
  have hsum : s.readIndex + (s.writeIndex + Size - s.readIndex) = s.writeIndex + Size := by
    omega
  rw [hsum, Nat.add_mod_right]
  exact Nat.mod_eq_of_lt hw

lemma abstractQueue_length (s : RingBuffer α Size) :
    (abstractQueue s).length = size s := by
  simp [abstractQueue]

lemma push_fail_iff (hS : Size = 2 ^ k) (hk : k ≤ 64) (s : RingBuffer α Size)
    (hr : s.readIndex < Size) (hw : s.writeIndex < Size) :
    increment Size s.writeIndex = s.readIndex ↔ size s = Size - 1 := by
  have hS0 : 0 < Size := size_pos hS
  rw [increment_eq hS, size_eq hS hk s hr]
  rcases mod_two_cases (s.writeIndex + 1) Size (by omega) with ⟨h1, h2⟩ | ⟨h1, h2⟩ <;>
    rcases mod_two_cases (s.writeIndex + Size - s.readIndex) Size (by omega) with
      ⟨h3, h4⟩ | ⟨h3, h4⟩ <;>
    omega

lemma pop_fail_iff (hS : Size = 2 ^ k) (hk : k ≤ 64) (s : RingBuffer α Size)
    (hr : s.readIndex < Size) (hw : s.writeIndex < Size) :
    s.readIndex = s.writeIndex ↔ size s = 0 := by
  have hS0 : 0 < Size := size_pos hS
  rw [size_eq hS hk s hr]
  rcases mod_two_cases (s.writeIndex + Size - s.readIndex) Size (by omega) with
    ⟨h3, h4⟩ | ⟨h3, h4⟩ <;> omega

lemma push_sim (hS : Size = 2 ^ k) (hk : k ≤ 64) (s : RingBuffer α Size) (x : α)
    (h : Inv s) :
    (push s x).1 = (modelPush (capacity Size) (abstractQueue s) x).1 ∧
    abstractQueue (push s x).2 = (modelPush (capacity Size) (abstractQueue s) x).2 ∧
    Inv (push s x).2 := by
  obtain ⟨hr, hw⟩ := h
  have hS0 : 0 < Size := size_pos hS
  have hfull := push_fail_iff hS hk s hr hw
  have hlen : (abstractQueue s).length = size s := abstractQueue_length s
  by_cases hc : increment Size s.writeIndex = s.readIndex
  · have hsz : size s = Size - 1 := hfull.mp hc
    have hqlen : (abstractQueue s).length = capacity Size := by
      rw [hlen, hsz, capacity]
    simp only [push, modelPush]
    rw [if_pos hc, if_pos hqlen]
    exact ⟨rfl, rfl, hr, hw⟩
  · have hsz : size s ≠ Size - 1 := fun hcon => hc (hfull.mpr hcon)
    have hslt : size s < Size := size_lt hS hk s hr
    have hqlen : (abstractQueue s).length ≠ capacity Size := by
      rw [hlen, capacity]
      omega
    simp only [push, modelPush]
    rw [if_neg hc, if_neg hqlen]
    refine ⟨rfl, ?_, hr, increment_lt hS s.writeIndex⟩
    -- the successor state
    set s2 : RingBuffer α Size :=
      { buffer := fun j => if j = s.writeIndex then x else s.buffer j,
        readIndex := s.readIndex,
        writeIndex := increment Size s.writeIndex } with hs2
    show abstractQueue s2 = abstractQueue s ++ [x]
    have hr2 : s2.readIndex < Size := hr
    have hw2 : s2.writeIndex < Size := increment_lt hS s.writeIndex
    -- new size is old size + 1
    have hsz2 : size s2 = size s + 1 := by
      have e1 := size_eq hS hk s hr
      have e2 := size_eq hS hk s2 hr2
      have hwr : s2.writeIndex = (s.writeIndex + 1) % Size := increment_eq hS s.writeIndex
      rw [hwr] at e2
      have estep : ((s.writeIndex + 1) % Size + Size - s.readIndex) % Size
          = (s.writeIndex + 1 + Size - s.readIndex) % Size := by
        have h1 : (s.writeIndex + 1) % Size + Size - s.readIndex
            = (s.writeIndex + 1) % Size + (Size - s.readIndex) := by omega
        have h2 : s.writeIndex + 1 + Size - s.readIndex
            = s.writeIndex + 1 + (Size - s.readIndex) := by omega
        rw [h1, h2, Nat.mod_add_mod]
      rw [estep] at e2
      rcases mod_two_cases (s.writeIndex + Size - s.readIndex) Size (by omega) with
        ⟨h3, h4⟩ | ⟨h3, h4⟩ <;>
      · have hb : s.writeIndex + 1 + Size - s.readIndex < 2 * Size := by omega
        rcases mod_two_cases (s.writeIndex + 1 + Size - s.readIndex) Size hb with
          ⟨h5, h6⟩ | ⟨h5, h6⟩ <;> omega
    -- old cells are untouched, the new cell holds x
    have hwrite := write_eq_read_add_size hS hk s hr hw
    have hcells : ∀ j, j < size s →
        s2.buffer ((s.readIndex + j) % Size) = s.buffer ((s.readIndex + j) % Size) := by
      intro j hj
      have hne : (s.readIndex + j) % Size ≠ s.writeIndex := by
        intro hcon
        have hmodeq : (s.readIndex + j) % Size = (s.readIndex + size s) % Size := by
          rw [hcon, hwrite]
        have hjd : j ≡ size s [MOD Size] :=
          Nat.ModEq.add_left_cancel' s.readIndex hmodeq
        have : j % Size = size s % Size := hjd
        rw [Nat.mod_eq_of_lt (by omega), Nat.mod_eq_of_lt hslt] at this
        omega
      simp only [hs2, if_neg hne]
    -- assemble the queue equation
    rw [abstractQueue, abstractQueue, hsz2]
    have hrd : s2.readIndex = s.readIndex := rfl
    rw [hrd, List.range_succ, List.map_append]
    congr 1
    · exact List.map_congr_left fun j hj => hcells j (List.mem_range.mp hj)
    · simp only [List.map_cons, List.map_nil]
      rw [if_pos hwrite]

lemma pop_sim (hS : Size = 2 ^ k) (hk : k ≤ 64) (s : RingBuffer α Size)
    (h : Inv s) :
    (pop s).1 = (modelPop (abstractQueue s)).1 ∧
    abstractQueue (pop s).2 = (modelPop (abstractQueue s)).2 ∧
    Inv (pop s).2 := by
  obtain ⟨hr, hw⟩ := h
  have hS0 : 0 < Size := size_pos hS
  have hempty := pop_fail_iff hS hk s hr hw
  by_cases hc : s.readIndex = s.writeIndex
  · have hsz : size s = 0 := hempty.mp hc
    have hq : abstractQueue s = [] := by
      rw [abstractQueue, hsz]
      rfl
    have h1 : pop s = (none, s) := by
      simp only [pop]
      rw [if_pos hc]
    rw [h1, hq]
    exact ⟨rfl, rfl, hr, hw⟩
  · have hsz : size s ≠ 0 := fun hcon => hc (hempty.mpr hcon)
    obtain ⟨d0, hd0⟩ : ∃ d0, size s = d0 + 1 := ⟨size s - 1, by omega⟩
    have hslt : size s < Size := size_lt hS hk s hr
    have hq : abstractQueue s
        = s.buffer ((s.readIndex + 0) % Size) ::
          (List.range d0).map
            (fun j => s.buffer ((s.readIndex + Nat.succ j) % Size)) := by
      rw [abstractQueue, hd0, List.range_succ_eq_map, List.map_cons, List.map_map]
      rfl
    rw [pop, hq, modelPop]
    simp only [if_neg hc]
    have hhead : s.buffer ((s.readIndex + 0) % Size) = s.buffer s.readIndex := by
      rw [Nat.add_zero, Nat.mod_eq_of_lt hr]
    refine ⟨by rw [hhead], ?_, increment_lt hS s.readIndex, hw⟩
    set s2 : RingBuffer α Size :=
      { s with readIndex := increment Size s.readIndex } with hs2
    show abstractQueue s2 = _
    have hr2 : s2.readIndex < Size := increment_lt hS s.readIndex
    have hsz2 : size s2 = d0 := by
      have e1 := size_eq hS hk s hr
      have e2 : size s2 = (s.writeIndex + Size - (s.readIndex + 1) % Size) % Size := by
        have h := size_eq hS hk s2 hr2
        rwa [show s2.writeIndex = s.writeIndex from rfl,
          show s2.readIndex = increment Size s.readIndex from rfl,
          increment_eq hS] at h
      have hmod1 : (s.readIndex + 1) % Size = s.readIndex + 1 ∨
          (s.readIndex + 1 = Size ∧ (s.readIndex + 1) % Size = 0) := by
        rcases mod_two_cases (s.readIndex + 1) Size (by omega) with ⟨h1, h2⟩ | ⟨h1, h2⟩
        · exact Or.inl h2
        · exact Or.inr ⟨by omega, by omega⟩
      rcases hmod1 with hm | ⟨hSeq, hm⟩ <;> rw [hm] at e2
      · rcases mod_two_cases (s.writeIndex + Size - s.readIndex) Size (by omega) with
          ⟨h3, h4⟩ | ⟨h3, h4⟩ <;>
        rcases mod_two_cases (s.writeIndex + Size - (s.readIndex + 1)) Size (by omega) with
          ⟨h5, h6⟩ | ⟨h5, h6⟩ <;> omega
      · rcases mod_two_cases (s.writeIndex + Size - s.readIndex) Size (by omega) with
          ⟨h3, h4⟩ | ⟨h3, h4⟩ <;>
        rcases mod_two_cases (s.writeIndex + Size - 0) Size (by omega) with
          ⟨h5, h6⟩ | ⟨h5, h6⟩ <;> omega
    rw [abstractQueue, hsz2]
    refine List.map_congr_left fun j hj => ?_
    have hrr : s2.readIndex = (s.readIndex + 1) % Size := increment_eq hS s.readIndex
    have hbuf : s2.buffer = s.buffer := rfl
    rw [hbuf, hrr, Nat.mod_add_mod]
    have harg : s.readIndex + 1 + j = s.readIndex + Nat.succ j := by omega
    rw [harg]

lemma runOps_eq_runModel (hS : Size = 2 ^ k) (hk : k ≤ 64) (ops : List (Op α)) :
    ∀ s : RingBuffer α Size, Inv s →
      runOps s ops = runModel (capacity Size) (abstractQueue s) ops := by
  induction ops with
  | nil => intro s _; rfl
  | cons op rest ih =>
    intro s hs
    cases op with
    | push x =>
      obtain ⟨h1, h2, h3⟩ := push_sim hS hk s x hs
      rw [runOps, runModel, h1, ih _ h3, h2]
    | pop =>
      obtain ⟨h1, h2, h3⟩ := pop_sim hS hk s hs
      rw [runOps, runModel, h1, ih _ h3, h2]

lemma abstractQueue_initial (hS : Size = 2 ^ k) (b0 : ℕ → α) :
    abstractQueue (initial b0 : RingBuffer α Size) = [] := by
  have hsz : size (initial b0 : RingBuffer α Size) = 0 := by
    unfold size initial
    rw [and_mask hS]
    simp
  rw [abstractQueue, hsz]
  rfl

end RingBufferLemmas

end RingBuffer

/-- C4: for every single-threaded sequence of `push`/`pop` operations, the ring
buffer behaves exactly like an unbounded-order-preserving FIFO queue of
capacity `Size - 1`: the observation trace (push results and popped values) of
the ring buffer equals that of the list-based FIFO model, so whenever the
buffered element count never exceeds the capacity, `pop` returns the elements
in exactly the order they were pushed. -/
theorem C4_ringBuffer_pop_order_is_fifo {α : Type} (k Size : ℕ)
    (hS : Size = 2 ^ k) (hk : k ≤ 64) (b0 : ℕ → α) (ops : List (RingBuffer.Op α)) :
    RingBuffer.runOps (RingBuffer.initial b0 : RingBuffer α Size) ops
      = RingBuffer.runModel (RingBuffer.capacity Size) [] ops := by
  rw [RingBuffer.runOps_eq_runModel hS hk ops _
    ⟨RingBuffer.size_pos hS, RingBuffer.size_pos hS⟩,
    RingBuffer.abstractQueue_initial hS]

/-- C4 witness: a concrete run on a buffer of `Size = 4` matches the FIFO
model. -/
theorem C4_ringBuffer_pop_order_is_fifo_witness :
    RingBuffer.runOps
        (RingBuffer.initial (fun _ => 0) : RingBuffer ℕ 4)
        [RingBuffer.Op.push 10, RingBuffer.Op.push 20, RingBuffer.Op.pop,
         RingBuffer.Op.push 30, RingBuffer.Op.push 40, RingBuffer.Op.push 50,
         RingBuffer.Op.pop, RingBuffer.Op.pop, RingBuffer.Op.pop, RingBuffer.Op.pop]
      = RingBuffer.runModel (RingBuffer.capacity 4) []
        [RingBuffer.Op.push 10, RingBuffer.Op.push 20, RingBuffer.Op.pop,
         RingBuffer.Op.push 30, RingBuffer.Op.push 40, RingBuffer.Op.push 50,
         RingBuffer.Op.pop, RingBuffer.Op.pop, RingBuffer.Op.pop, RingBuffer.Op.pop] :=
  C4_ringBuffer_pop_order_is_fifo 2 4 rfl (by norm_num) (fun _ => 0) _

/-- C5: in every state satisfying the index invariant (which every reachable
single-threaded state does), `push` returns `false` iff `size()` equals
`capacity()`, and a failed push leaves the state (buffer contents and both
indices) unchanged. -/
theorem C5_push_fails_iff_full {α : Type} (k Size : ℕ)
    (hS : Size = 2 ^ k) (hk : k ≤ 64) (s : RingBuffer α Size) (x : α)
    (h : RingBuffer.Inv s) :
    ((RingBuffer.push s x).1 = false ↔ RingBuffer.size s = RingBuffer.capacity Size) ∧
    ((RingBuffer.push s x).1 = false → (RingBuffer.push s x).2 = s) := by
  obtain ⟨hr, hw⟩ := h
  have hiff := RingBuffer.push_fail_iff hS hk s hr hw
  by_cases hc : RingBuffer.increment Size s.writeIndex = s.readIndex
  · have h1 : RingBuffer.push s x = (false, s) := by
      simp only [RingBuffer.push]
      rw [if_pos hc]
    rw [h1]
    exact ⟨⟨fun _ => hiff.mp hc, fun _ => rfl⟩, fun _ => rfl⟩
  · have h1 : (RingBuffer.push s x).1 = true := by
      simp only [RingBuffer.push]
      rw [if_neg hc]
    rw [h1]
    refine ⟨⟨fun hcon => absurd hcon (by simp), fun hcon => absurd (hiff.mpr hcon) hc⟩,
      fun hcon => absurd hcon (by simp)⟩



/-- C5 witness: a full buffer of `Size = 4` (three elements buffered) refuses a
push and is left unchanged. -/
theorem C5_push_fails_iff_full_witness :
    (((RingBuffer.push
        ({ buffer := fun _ => 0, readIndex := 0, writeIndex := 3 } : RingBuffer ℕ 4)
        7).1 = false ↔
      RingBuffer.size
        ({ buffer := fun _ => 0, readIndex := 0, writeIndex := 3 } : RingBuffer ℕ 4)
        = RingBuffer.capacity 4) ∧
     ((RingBuffer.push
        ({ buffer := fun _ => 0, readIndex := 0, writeIndex := 3 } : RingBuffer ℕ 4)
        7).1 = false →
      (RingBuffer.push
        ({ buffer := fun _ => 0, readIndex := 0, writeIndex := 3 } : RingBuffer ℕ 4)
        7).2
        = { buffer := fun _ => 0, readIndex := 0, writeIndex := 3 })) :=
  C5_push_fails_iff_full 2 4 rfl (by norm_num) _ 7 ⟨by norm_num, by norm_num⟩

/-- C1 (evaluation of the defect): for any decimator state with decimation
factor 3, feeding three samples in one `processMono` call produces one output
sample, while feeding the same three samples as chunks of one and two samples
produces no output at all — the emission condition is keyed to the per-call
loop index, not to a persistent phase, so chunked processing does not equal
one-shot processing. -/
theorem C1_processMono_chunking_changes_output (d : PolyphaseDecimator)
    (hM : d.decimationFactor = 3) (a b c : ℚ) :
    (PolyphaseDecimator.processMono d [a, b, c]).2.length = 1 ∧
    (PolyphaseDecimator.processMono d [a]).2.length = 0 ∧
    (PolyphaseDecimator.processMono
        (PolyphaseDecimator.processMono d [a]).1 [b, c]).2.length = 0 := by
  refine ⟨?_, ?_, ?_⟩ <;>
    simp [PolyphaseDecimator.processMono, PolyphaseDecimator.processMonoAux,
      PolyphaseDecimator.pushSample, hM]

/-- C1 witness: the defect evaluated on a concrete decimator state (factor 3,
filter length 48, zeroed history). -/
theorem C1_processMono_chunking_changes_output_witness :
    (PolyphaseDecimator.processMono
        { decimationFactor := 3, filterLength := 48,
          polyphaseFilters := [[], [], []],
          inputBuffer := List.replicate 48 0, bufferIndex := 0 }
        [1, 2, 3]).2.length = 1 ∧
    (PolyphaseDecimator.processMono
        { decimationFactor := 3, filterLength := 48,
          polyphaseFilters := [[], [], []],
          inputBuffer := List.replicate 48 0, bufferIndex := 0 }
        [1]).2.length = 0 ∧
    (PolyphaseDecimator.processMono
        (PolyphaseDecimator.processMono
          { decimationFactor := 3, filterLength := 48,
            polyphaseFilters := [[], [], []],
            inputBuffer := List.replicate 48 0, bufferIndex := 0 }
          [1]).1 [2, 3]).2.length = 0 :=
  C1_processMono_chunking_changes_output _ rfl 1 2 3

namespace PostProcessor

lemma clampQ_nonneg (x : ℚ) : 0 ≤ clampQ x 0 1 := le_max_left 0 _

lemma clampQ_le_one (x : ℚ) : clampQ x 0 1 ≤ 1 :=
  max_le (by norm_num) (min_le_right x 1)

lemma validate_median (c : Config) :
    (validateConfig c).medianFilterSize % 2 = 1 ∧ 3 ≤ (validateConfig c).medianFilterSize := by
  simp only [validateConfig]
  split_ifs <;> omega

lemma validate_threshold_mem (c : Config) :
    0 ≤ (validateConfig c).threshold ∧ (validateConfig c).threshold ≤ 1 := by
  simp only [validateConfig]
  exact ⟨clampQ_nonneg _, clampQ_le_one _⟩

lemma validate_hyst (c : Config) :
    (0 ≤ (validateConfig c).hysteresisLow ∧ (validateConfig c).hysteresisLow ≤ 1) ∧
    (0 ≤ (validateConfig c).hysteresisHigh ∧ (validateConfig c).hysteresisHigh ≤ 1) ∧
    (c.enableHysteresis = true →
      (validateConfig c).hysteresisLow ≤ (validateConfig c).hysteresisHigh) := by
  have hth0 := clampQ_nonneg c.threshold
  have hth1 := clampQ_le_one c.threshold
  have hlo0 := clampQ_nonneg c.hysteresisLow
  have hlo1 := clampQ_le_one c.hysteresisLow
  have hhi0 := clampQ_nonneg c.hysteresisHigh
  have hhi1 := clampQ_le_one c.hysteresisHigh
  simp only [validateConfig]
  split_ifs with h1 h2 h3 <;>
    refine ⟨⟨?_, ?_⟩, ⟨?_, ?_⟩, fun henb => ?_⟩ <;>
    dsimp only <;>
    first
      | linarith
      | (have hx : ¬ (clampQ c.hysteresisHigh 0 1 < clampQ c.hysteresisLow 0 1) :=
           fun hcon => h1 ⟨henb, hcon⟩
         linarith)

lemma validate_hyst_derived (c : Config) (henb : c.enableHysteresis = true)
    (hlo : clampQ c.hysteresisLow 0 1 = 0) (hhi : clampQ c.hysteresisHigh 0 1 = 0) :
    (validateConfig c).hysteresisHigh = (validateConfig c).threshold ∧
    (validateConfig c).hysteresisLow = (validateConfig c).threshold * (8 / 10) := by
  simp only [validateConfig, henb, hlo, hhi]
  norm_num

lemma validate_durations (c : Config) :
    1 ≤ (validateConfig c).minHitDuration ∧
    (validateConfig c).minHitDuration < (validateConfig c).maxHitDuration ∧
    0 ≤ (validateConfig c).debounceFrames := by
  simp only [validateConfig]
  refine ⟨le_max_left 1 _, ?_, le_max_left 0 _⟩
  exact lt_of_lt_of_le (lt_add_one _) (le_max_left _ _)

lemma getD_pred {P : ℚ → Prop} (l : List ℚ) (i : ℕ) (d : ℚ)
    (hl : ∀ x ∈ l, P x) (hd : P d) : P (l.getD i d) := by
  rcases lt_or_le i l.length with h | h
  · rw [List.getD_eq_getElem l d h]
    exact hl _ (List.getElem_mem h)
  · rw [List.getD_eq_default l d h]
    exact hd

lemma applyMedianFilter_mem (s : State)
    (hh : ∀ x ∈ s.confidenceHistory, 0 ≤ x ∧ x ≤ 1) :
    0 ≤ applyMedianFilter s ∧ applyMedianFilter s ≤ 1 := by
  have hzero : (0:ℚ) ≤ 0 ∧ (0:ℚ) ≤ 1 := ⟨le_refl 0, by norm_num⟩
  have hmemTake : ∀ x ∈ s.confidenceHistory.take s.historyIndex, 0 ≤ x ∧ x ≤ 1 :=
    fun x hx => hh x (List.mem_of_mem_take hx)
  have hsortFull : ∀ x ∈ List.insertionSort (fun a b => a ≤ b) s.confidenceHistory,
      0 ≤ x ∧ x ≤ 1 :=
    fun x hx => hh x ((List.perm_insertionSort _ _).subset hx)
  have hsortTake : ∀ x ∈ List.insertionSort (fun a b => a ≤ b)
      (s.confidenceHistory.take s.historyIndex), 0 ≤ x ∧ x ≤ 1 :=
    fun x hx => hmemTake x ((List.perm_insertionSort _ _).subset hx)
  simp only [applyMedianFilter]
  split_ifs with h1 h2 h3 h4
  · exact getD_pred _ _ _ hh hzero
  · exact getD_pred _ _ _ hsortFull hzero
  · obtain ⟨ha0, ha1⟩ := getD_pred _ (s.confidenceHistory.length / 2) 0 hsortFull hzero
    obtain ⟨hb0, hb1⟩ := getD_pred _ (s.confidenceHistory.length / 2 - 1) 0 hsortFull hzero
    constructor <;> linarith
  · exact getD_pred _ _ _ hsortTake hzero
  · obtain ⟨ha0, ha1⟩ := getD_pred _
      ((s.confidenceHistory.take s.historyIndex).length / 2) 0 hsortTake hzero
    obtain ⟨hb0, hb1⟩ := getD_pred _
      ((s.confidenceHistory.take s.historyIndex).length / 2 - 1) 0 hsortTake hzero
    constructor <;> linarith

lemma trigger_true_eq (s : State) :
    triggerHitStateChange s true
      = ({ s with hadHit := true, totalHits := s.totalHits + 1 }, [true]) := by
  simp [triggerHitStateChange]

lemma trigger_false_eq (s : State) :
    triggerHitStateChange s false = ({ s with hadHit := false }, [false]) := by
  simp [triggerHitStateChange]

lemma hitBranches_preserves (s : State) (sm : ℚ) (t : Bool) :
    (hitBranches s sm t).1.confidenceHistory = s.confidenceHistory ∧
    (hitBranches s sm t).1.lastSmoothedConfidence = s.lastSmoothedConfidence ∧
    (hitBranches s sm t).1.enabled = s.enabled := by
  simp only [hitBranches, trigger_true_eq, trigger_false_eq]
  split_ifs <;> exact ⟨rfl, rfl, rfl⟩

lemma updateHitDetection_preserves (s : State) (sm : ℚ) :
    (updateHitDetection s sm).1.confidenceHistory = s.confidenceHistory ∧
    (updateHitDetection s sm).1.lastSmoothedConfidence = s.lastSmoothedConfidence ∧
    (updateHitDetection s sm).1.enabled = s.enabled := by
  simp only [updateHitDetection]
  split_ifs
  · exact ⟨rfl, rfl, rfl⟩
  · exact hitBranches_preserves _ sm _
  · exact hitBranches_preserves _ sm _

lemma updateHitDetection_good (s : State) (sm : ℚ) (h : GoodState s) :
    GoodState (updateHitDetection s sm).1 := by
  obtain ⟨h1, h2, h3⟩ := updateHitDetection_preserves s sm
  refine ⟨?_, ?_, ?_⟩
  · rw [h1]
    exact h.1
  · rw [h2]
    exact h.2.1
  · rw [h2]
    exact h.2.2

lemma processConfidence_good (s : State) (c : ℚ) (h : GoodState s) :
    GoodState (processConfidence s c).1 ∧
    (s.enabled = true →
      0 ≤ (processConfidence s c).2.1 ∧ (processConfidence s c).2.1 ≤ 1) := by
  obtain ⟨hh, hs0, hs1⟩ := h
  by_cases he : s.enabled = false
  · refine ⟨?_, fun hcon => ?_⟩
    · simp only [processConfidence, if_pos he]
      exact ⟨hh, hs0, hs1⟩
    · rw [he] at hcon
      exact absurd hcon (by simp)
  · have hmem1 : ∀ x ∈ s.confidenceHistory.set s.historyIndex (clampQ c 0 1),
        0 ≤ x ∧ x ≤ 1 := by
      intro x hx
      rcases List.mem_or_eq_of_mem_set hx with hx2 | hx2
      · exact hh x hx2
      · rw [hx2]
        exact ⟨clampQ_nonneg c, clampQ_le_one c⟩
    simp only [processConfidence, if_neg he]
    refine ⟨updateHitDetection_good _ _
        ⟨hmem1, (applyMedianFilter_mem _ hmem1).1, (applyMedianFilter_mem _ hmem1).2⟩,
      fun _ => ⟨(applyMedianFilter_mem _ hmem1).1, (applyMedianFilter_mem _ hmem1).2⟩⟩

lemma run_good (ops : List PPOp) :
    ∀ s : State, GoodState s → GoodState (run s ops).1 := by
  induction ops with
  | nil => intro s h; exact h
  | cons op rest ih =>
    intro s h
    cases op with
    | setEnabled b => exact ih _ ⟨h.1, h.2.1, h.2.2⟩
    | process c => exact ih _ (processConfidence_good s c h).1

lemma init_good (c : Config) : GoodState (init c) := by
  refine ⟨?_, ?_, ?_⟩
  · intro x hx
    have hx2 : x ∈ List.replicate (validateConfig c).medianFilterSize.toNat (0:ℚ) := hx
    obtain ⟨-, rfl⟩ := List.mem_replicate.mp hx2
    exact ⟨le_refl 0, by norm_num⟩
  · show (0:ℚ) ≤ 0
    exact le_refl 0
  · show (0:ℚ) ≤ 1
    norm_num

end PostProcessor

/-- C6: after construction or `updateConfig`, the stored configuration (the
result of `validateConfig`) has an odd median filter size of at least 3;
threshold and both hysteresis bounds in `[0,1]`; with hysteresis enabled the
low bound does not exceed the high one, and when both clamped bounds were zero
they are derived as high = threshold and low = 0.8 × threshold; and
`minHitDuration ≥ 1`, `maxHitDuration > minHitDuration`, `debounceFrames ≥ 0`. -/
theorem C6_validateConfig_invariants (c : PostProcessor.Config) :
    ((PostProcessor.validateConfig c).medianFilterSize % 2 = 1
      ∧ 3 ≤ (PostProcessor.validateConfig c).medianFilterSize)
    ∧ (0 ≤ (PostProcessor.validateConfig c).threshold
      ∧ (PostProcessor.validateConfig c).threshold ≤ 1)
    ∧ (0 ≤ (PostProcessor.validateConfig c).hysteresisLow
      ∧ (PostProcessor.validateConfig c).hysteresisLow ≤ 1)
    ∧ (0 ≤ (PostProcessor.validateConfig c).hysteresisHigh
      ∧ (PostProcessor.validateConfig c).hysteresisHigh ≤ 1)
    ∧ (c.enableHysteresis = true →
        (PostProcessor.validateConfig c).hysteresisLow
          ≤ (PostProcessor.validateConfig c).hysteresisHigh)
    ∧ (c.enableHysteresis = true →
        PostProcessor.clampQ c.hysteresisLow 0 1 = 0 →
        PostProcessor.clampQ c.hysteresisHigh 0 1 = 0 →
        (PostProcessor.validateConfig c).hysteresisHigh
            = (PostProcessor.validateConfig c).threshold
          ∧ (PostProcessor.validateConfig c).hysteresisLow
            = (PostProcessor.validateConfig c).threshold * (8 / 10))
    ∧ (1 ≤ (PostProcessor.validateConfig c).minHitDuration)
    ∧ ((PostProcessor.validateConfig c).minHitDuration
        < (PostProcessor.validateConfig c).maxHitDuration)
    ∧ (0 ≤ (PostProcessor.validateConfig c).debounceFrames) :=
  ⟨PostProcessor.validate_median c,
   PostProcessor.validate_threshold_mem c,
   (PostProcessor.validate_hyst c).1,
   (PostProcessor.validate_hyst c).2.1,
   (PostProcessor.validate_hyst c).2.2,
   fun h hl hh => PostProcessor.validate_hyst_derived c h hl hh,
   (PostProcessor.validate_durations c).1,
   (PostProcessor.validate_durations c).2.1,
   (PostProcessor.validate_durations c).2.2⟩

/-- C6 witness: the invariants hold at a concrete invalid input configuration
(even filter size, inverted-degenerate hysteresis bounds, zero durations), with
the hysteresis-derivation implications discharged. -/
theorem C6_validateConfig_invariants_witness :
    ((PostProcessor.validateConfig
        { medianFilterSize := 2, threshold := 1, hysteresisLow := -1,
          hysteresisHigh := 0, enableHysteresis := true, minHitDuration := 0,
          maxHitDuration := 0, enableDebounce := true, debounceFrames := -5
          }).medianFilterSize % 2 = 1)
    ∧ ((PostProcessor.validateConfig
        { medianFilterSize := 2, threshold := 1, hysteresisLow := -1,
          hysteresisHigh := 0, enableHysteresis := true, minHitDuration := 0,
          maxHitDuration := 0, enableDebounce := true, debounceFrames := -5
          }).hysteresisHigh
        = (PostProcessor.validateConfig
        { medianFilterSize := 2, threshold := 1, hysteresisLow := -1,
          hysteresisHigh := 0, enableHysteresis := true, minHitDuration := 0,
          maxHitDuration := 0, enableDebounce := true, debounceFrames := -5
          }).threshold)
    ∧ ((PostProcessor.validateConfig
        { medianFilterSize := 2, threshold := 1, hysteresisLow := -1,
          hysteresisHigh := 0, enableHysteresis := true, minHitDuration := 0,
          maxHitDuration := 0, enableDebounce := true, debounceFrames := -5
          }).minHitDuration
        < (PostProcessor.validateConfig
        { medianFilterSize := 2, threshold := 1, hysteresisLow := -1,
          hysteresisHigh := 0, enableHysteresis := true, minHitDuration := 0,
          maxHitDuration := 0, enableDebounce := true, debounceFrames := -5
          }).maxHitDuration) :=
  ⟨(C6_validateConfig_invariants _).1.1,
   ((C6_validateConfig_invariants _).2.2.2.2.2.1 rfl (by decide) (by decide)).1,
   (C6_validateConfig_invariants _).2.2.2.2.2.2.2.1⟩

/-- C2 (evaluation of the defect): a valid configuration with the clamped
minimum `minHitDuration = 1` (simple threshold 1, median size 3, no hysteresis,
no debounce) fed a constant confidence stream that meets the threshold at every
frame never fires the hit-state-change callback at all: the smoothed
confidences all equal 1 and the running hit-frame count reaches 3, yet the
callback trace stays empty and `hasHit()` stays false — the
`mHitFrameCount == minHitDuration` test only executes in the continuation
branch, where the count is already at least 2. -/
theorem C2_hit_callback_never_fires_with_minHitDuration_one :
    ((PostProcessor.init
        { medianFilterSize := 3, threshold := 1, hysteresisLow := 0,
          hysteresisHigh := 0, enableHysteresis := false, minHitDuration := 1,
          maxHitDuration := 100, enableDebounce := false, debounceFrames := 0
          }).config.minHitDuration = 1) ∧
    ((PostProcessor.run (PostProcessor.init
        { medianFilterSize := 3, threshold := 1, hysteresisLow := 0,
          hysteresisHigh := 0, enableHysteresis := false, minHitDuration := 1,
          maxHitDuration := 100, enableDebounce := false, debounceFrames := 0 })
        [PostProcessor.PPOp.process 1, PostProcessor.PPOp.process 1,
         PostProcessor.PPOp.process 1]).2.1 = [1, 1, 1]) ∧
    ((PostProcessor.run (PostProcessor.init
        { medianFilterSize := 3, threshold := 1, hysteresisLow := 0,
          hysteresisHigh := 0, enableHysteresis := false, minHitDuration := 1,
          maxHitDuration := 100, enableDebounce := false, debounceFrames := 0 })
        [PostProcessor.PPOp.process 1, PostProcessor.PPOp.process 1,
         PostProcessor.PPOp.process 1]).2.2 = []) ∧
    ((PostProcessor.run (PostProcessor.init
        { medianFilterSize := 3, threshold := 1, hysteresisLow := 0,
          hysteresisHigh := 0, enableHysteresis := false, minHitDuration := 1,
          maxHitDuration := 100, enableDebounce := false, debounceFrames := 0 })
        [PostProcessor.PPOp.process 1, PostProcessor.PPOp.process 1,
         PostProcessor.PPOp.process 1]).1.hadHit = false) ∧
    ((PostProcessor.run (PostProcessor.init
        { medianFilterSize := 3, threshold := 1, hysteresisLow := 0,
          hysteresisHigh := 0, enableHysteresis := false, minHitDuration := 1,
          maxHitDuration := 100, enableDebounce := false, debounceFrames := 0 })
        [PostProcessor.PPOp.process 1, PostProcessor.PPOp.process 1,
         PostProcessor.PPOp.process 1]).1.hitFrameCount = 3) := by
  decide

/-- C10: every input confidence, including values outside `[0,1]`, is clamped
before filtering when processing is enabled: after any sequence of operations
the published smoothed confidence (`getCurrentSmoothedConfidence`) lies in
`[0,1]`, and whenever processing is enabled the value returned by
`processConfidence` lies in `[0,1]` as well. -/
theorem C10_smoothed_confidence_in_unit_interval (cfg : PostProcessor.Config)
    (ops : List PostProcessor.PPOp) (c : ℚ) :
    (0 ≤ (PostProcessor.run (PostProcessor.init cfg) ops).1.lastSmoothedConfidence
      ∧ (PostProcessor.run (PostProcessor.init cfg) ops).1.lastSmoothedConfidence ≤ 1) ∧
    ((PostProcessor.run (PostProcessor.init cfg) ops).1.enabled = true →
      0 ≤ (PostProcessor.processConfidence
            (PostProcessor.run (PostProcessor.init cfg) ops).1 c).2.1
        ∧ (PostProcessor.processConfidence
            (PostProcessor.run (PostProcessor.init cfg) ops).1 c).2.1 ≤ 1) := by
  have hg := PostProcessor.run_good ops (PostProcessor.init cfg) (PostProcessor.init_good cfg)
  exact ⟨hg.2, fun he => (PostProcessor.processConfidence_good _ c hg).2 he⟩

/-- C10 witness: out-of-range confidences 5 and -3 processed on a concrete
configuration leave the published value in `[0,1]`, and a further call with
confidence 7 returns a value in `[0,1]`. -/
theorem C10_smoothed_confidence_in_unit_interval_witness :
    (0 ≤ (PostProcessor.run (PostProcessor.init
        { medianFilterSize := 3, threshold := 1, hysteresisLow := 0,
          hysteresisHigh := 0, enableHysteresis := false, minHitDuration := 1,
          maxHitDuration := 100, enableDebounce := false, debounceFrames := 0 })
        [PostProcessor.PPOp.process 5,
         PostProcessor.PPOp.process (-3)]).1.lastSmoothedConfidence
      ∧ (PostProcessor.run (PostProcessor.init
        { medianFilterSize := 3, threshold := 1, hysteresisLow := 0,
          hysteresisHigh := 0, enableHysteresis := false, minHitDuration := 1,
          maxHitDuration := 100, enableDebounce := false, debounceFrames := 0 })
        [PostProcessor.PPOp.process 5,
         PostProcessor.PPOp.process (-3)]).1.lastSmoothedConfidence ≤ 1) ∧
    (0 ≤ (PostProcessor.processConfidence
          (PostProcessor.run (PostProcessor.init
        { medianFilterSize := 3, threshold := 1, hysteresisLow := 0,
          hysteresisHigh := 0, enableHysteresis := false, minHitDuration := 1,
          maxHitDuration := 100, enableDebounce := false, debounceFrames := 0 })
        [PostProcessor.PPOp.process 5,
         PostProcessor.PPOp.process (-3)]).1 7).2.1
      ∧ (PostProcessor.processConfidence
          (PostProcessor.run (PostProcessor.init
        { medianFilterSize := 3, threshold := 1, hysteresisLow := 0,
          hysteresisHigh := 0, enableHysteresis := false, minHitDuration := 1,
          maxHitDuration := 100, enableDebounce := false, debounceFrames := 0 })
        [PostProcessor.PPOp.process 5,
         PostProcessor.PPOp.process (-3)]).1 7).2.1 ≤ 1) :=
  ⟨(C10_smoothed_confidence_in_unit_interval _ _ 7).1,
   (C10_smoothed_confidence_in_unit_interval _ _ 7).2 (by decide)⟩


namespace MidiEventHandler

lemma countNoteOn_append (a b : List MidiEvent) :
    countNoteOn (a ++ b) = countNoteOn a + countNoteOn b := by
  simp [countNoteOn, List.filter_append]

lemma countNoteOff_append (a b : List MidiEvent) :
    countNoteOff (a ++ b) = countNoteOff a + countNoteOff b := by
  simp [countNoteOff, List.filter_append]

lemma processHitState_config (s : State) (h : Bool) (off : ℤ) (ts : ℕ) :
    (processHitState s h off ts).1.config = s.config := by
  simp only [processHitState, createEvent]
  split_ifs <;> rfl

lemma processPendingEvents_config (s : State) (cur : ℤ) :
    (processPendingEvents s cur).1.config = s.config := by
  simp only [processPendingEvents, createEvent]
  split_ifs <;> rfl

lemma processHitState_same (s : State) (h : Bool) (off : ℤ) (ts : ℕ)
    (hsame : h = s.lastHitState) : processHitState s h off ts = (s, none) := by
  simp only [processHitState]
  rw [if_pos hsame]

lemma processHitState_noteOn (s : State) (off : ℤ) (ts : ℕ)
    (hlast : s.lastHitState = false) (hno : s.noteIsOn = false) :
    processHitState s true off ts
      = ({ (createEvent { s with lastHitState := true } EventType.noteOn off ts).1
            with noteIsOn := true },
         some (createEvent { s with lastHitState := true } EventType.noteOn off ts).2) := by
  simp only [processHitState]
  rw [if_neg (by simp [hlast]), if_pos (by exact ⟨by trivial, hno⟩)]

lemma processHitState_retrigger (s : State) (off : ℤ) (ts : ℕ)
    (hlast : s.lastHitState = false) (hyes : s.noteIsOn = true) :
    processHitState s true off ts = ({ s with lastHitState := true }, none) := by
  simp only [processHitState]
  rw [if_neg (by simp [hlast]), if_neg (by simp [hyes]), if_neg (by simp)]

lemma processHitState_endIdle (s : State) (off : ℤ) (ts : ℕ)
    (hlast : s.lastHitState = true) (hno : s.noteIsOn = false) :
    processHitState s false off ts = ({ s with lastHitState := false }, none) := by
  simp only [processHitState]
  rw [if_neg (by simp [hlast]), if_neg (by simp), if_neg (by simp [hno])]

lemma processHitState_schedule (s : State) (off : ℤ) (ts : ℕ)
    (hlast : s.lastHitState = true) (hyes : s.noteIsOn = true)
    (hsend : s.config.sendNoteOff = true) (hD : 0 < s.config.noteOffDelay) :
    processHitState s false off ts
      = ({ s with
            lastHitState := false,
            noteOffScheduledAt := off + s.config.noteOffDelay }, none) := by
  simp only [processHitState]
  rw [if_neg (by simp [hlast]), if_neg (by simp), if_pos (by exact ⟨by trivial, hyes⟩),
    if_pos hsend, if_pos hD]

lemma processHitState_immediate (s : State) (off : ℤ) (ts : ℕ)
    (hlast : s.lastHitState = true) (hyes : s.noteIsOn = true)
    (hsend : s.config.sendNoteOff = true) (hD : ¬ 0 < s.config.noteOffDelay) :
    processHitState s false off ts
      = ({ (createEvent { s with lastHitState := false } EventType.noteOff off ts).1
            with noteIsOn := false },
         some (createEvent { s with lastHitState := false } EventType.noteOff off ts).2) := by
  simp only [processHitState]
  rw [if_neg (by simp [hlast]), if_neg (by simp), if_pos (by exact ⟨by trivial, hyes⟩),
    if_pos hsend, if_neg hD]

lemma hit_step_balance (s : State) (h : Bool) (off : ℤ) (ts : ℕ)
    (hsend : s.config.sendNoteOff = true)
    (hsched : 0 ≤ s.noteOffScheduledAt → s.noteIsOn = true)
    (hdelay : s.config.noteOffDelay ≤ 0 → s.noteOffScheduledAt < 0) :
    (countNoteOn (processHitState s h off ts).2.toList
        + (if s.noteIsOn = true then 1 else 0)
      = countNoteOff (processHitState s h off ts).2.toList
        + (if (processHitState s h off ts).1.noteIsOn = true then 1 else 0))
    ∧ (0 ≤ (processHitState s h off ts).1.noteOffScheduledAt →
        (processHitState s h off ts).1.noteIsOn = true)
    ∧ ((processHitState s h off ts).1.config.noteOffDelay ≤ 0 →
        (processHitState s h off ts).1.noteOffScheduledAt < 0) := by
  by_cases hsame : h = s.lastHitState
  · rw [processHitState_same s h off ts hsame]
    exact ⟨rfl, hsched, hdelay⟩
  · cases h with
    | true =>
      have hlast : s.lastHitState = false := by
        cases hL : s.lastHitState
        · rfl
        · exact absurd hL.symm hsame
      cases hN : s.noteIsOn with
      | false =>
        rw [processHitState_noteOn s off ts hlast hN]
        refine ⟨?_, fun _ => rfl, fun hdel => hdelay hdel⟩
        simp [countNoteOn, countNoteOff, createEvent, hN]
      | true =>
        rw [processHitState_retrigger s off ts hlast hN]
        refine ⟨?_, fun _ => hN, fun hdel => hdelay hdel⟩
        simp [countNoteOn, countNoteOff, hN]
    | false =>
      have hlast : s.lastHitState = true := by
        cases hL : s.lastHitState
        · exact absurd hL.symm hsame
        · rfl
      cases hN : s.noteIsOn with
      | true =>
        by_cases hD : 0 < s.config.noteOffDelay
        · rw [processHitState_schedule s off ts hlast hN hsend hD]
          refine ⟨?_, fun _ => hN, fun hdel => absurd hD (not_lt.mpr hdel)⟩
          simp [countNoteOn, countNoteOff, hN]
        · rw [processHitState_immediate s off ts hlast hN hsend hD]
          have hneg : s.noteOffScheduledAt < 0 := hdelay (not_lt.mp hD)
          refine ⟨?_, fun hcon => absurd hcon (not_le.mpr hneg), fun _ => hneg⟩
          simp [countNoteOn, countNoteOff, createEvent, hN]
      | false =>
        rw [processHitState_endIdle s off ts hlast hN]
        refine ⟨?_, fun hc => hsched hc, fun hc => hdelay hc⟩
        simp [countNoteOn, countNoteOff, hN]

lemma processPendingEvents_fire (s : State) (cur : ℤ)
    (h1 : 0 ≤ s.noteOffScheduledAt) (h2 : s.noteOffScheduledAt ≤ cur) :
    processPendingEvents s cur
      = ({ (createEvent s EventType.noteOff cur s.lastEventTimeStamp).1 with
            noteIsOn := false, noteOffScheduledAt := -1 },
         some (createEvent s EventType.noteOff cur s.lastEventTimeStamp).2) := by
  simp only [processPendingEvents]
  rw [if_pos ⟨h1, h2⟩]

lemma processPendingEvents_skip (s : State) (cur : ℤ)
    (h : ¬ (0 ≤ s.noteOffScheduledAt ∧ s.noteOffScheduledAt ≤ cur)) :
    processPendingEvents s cur = (s, none) := by
  simp only [processPendingEvents]
  rw [if_neg h]

lemma pending_step_balance (s : State) (cur : ℤ)
    (hsched : 0 ≤ s.noteOffScheduledAt → s.noteIsOn = true)
    (hdelay : s.config.noteOffDelay ≤ 0 → s.noteOffScheduledAt < 0) :
    (countNoteOn (processPendingEvents s cur).2.toList
        + (if s.noteIsOn = true then 1 else 0)
      = countNoteOff (processPendingEvents s cur).2.toList
        + (if (processPendingEvents s cur).1.noteIsOn = true then 1 else 0))
    ∧ (0 ≤ (processPendingEvents s cur).1.noteOffScheduledAt →
        (processPendingEvents s cur).1.noteIsOn = true)
    ∧ ((processPendingEvents s cur).1.config.noteOffDelay ≤ 0 →
        (processPendingEvents s cur).1.noteOffScheduledAt < 0) := by
  by_cases h1 : 0 ≤ s.noteOffScheduledAt ∧ s.noteOffScheduledAt ≤ cur
  · have hyes : s.noteIsOn = true := hsched h1.1
    rw [processPendingEvents_fire s cur h1.1 h1.2]
    refine ⟨?_, ?_, ?_⟩
    · simp [countNoteOn, countNoteOff, createEvent, hyes]
    · intro hcon
      exact absurd (show (0:ℤ) ≤ -1 from hcon) (by norm_num)
    · intro _
      show (-1:ℤ) < 0
      norm_num
  · rw [processPendingEvents_skip s cur h1]
    exact ⟨rfl, fun hc => hsched hc, fun hc => hdelay hc⟩

lemma runMidi_balance (ops : List MidiOp) : ∀ s : State,
    s.config.sendNoteOff = true →
    (0 ≤ s.noteOffScheduledAt → s.noteIsOn = true) →
    (s.config.noteOffDelay ≤ 0 → s.noteOffScheduledAt < 0) →
    countNoteOn (runMidi s ops).2 + (if s.noteIsOn = true then 1 else 0)
      = countNoteOff (runMidi s ops).2
        + (if (runMidi s ops).1.noteIsOn = true then 1 else 0) := by
  induction ops with
  | nil =>
    intro s _ _ _
    simp [runMidi, countNoteOn, countNoteOff]
  | cons op rest ih =>
    intro s hsend hsched hdelay
    cases op with
    | hitState h off ts =>
      obtain ⟨hbal, hs2, hd2⟩ := hit_step_balance s h off ts hsend hsched hdelay
      have hcfg := processHitState_config s h off ts
      have hsend2 : (processHitState s h off ts).1.config.sendNoteOff = true := by
        rw [hcfg]; exact hsend
      have ihx := ih (processHitState s h off ts).1 hsend2 hs2 hd2
      simp only [runMidi]
      rw [countNoteOn_append, countNoteOff_append]
      omega
    | pending cur =>
      obtain ⟨hbal, hs2, hd2⟩ := pending_step_balance s cur hsched hdelay
      have hcfg := processPendingEvents_config s cur
      have hsend2 : (processPendingEvents s cur).1.config.sendNoteOff = true := by
        rw [hcfg]; exact hsend
      have ihx := ih (processPendingEvents s cur).1 hsend2 hs2 hd2
      simp only [runMidi]
      rw [countNoteOn_append, countNoteOff_append]
      omega

lemma processHitState_event_velocity (s : State) (h : Bool) (off : ℤ) (ts : ℕ)
    (e : MidiEvent) (he : (processHitState s h off ts).2 = some e) :
    (e.type = EventType.noteOff → e.velocity = 0) ∧
    (e.type = EventType.noteOn → e.velocity = s.config.hitVelocity) := by
  simp only [processHitState, createEvent] at he
  split_ifs at he <;> simp only [Option.some.injEq] at he <;> first
    | exact absurd he (by simp)
    | (rw [← he]
       refine ⟨fun ht => ?_, fun ht => ?_⟩ <;> simp_all)

lemma processPendingEvents_event_velocity (s : State) (cur : ℤ)
    (e : MidiEvent) (he : (processPendingEvents s cur).2 = some e) :
    (e.type = EventType.noteOff → e.velocity = 0) ∧
    (e.type = EventType.noteOn → e.velocity = s.config.hitVelocity) := by
  simp only [processPendingEvents, createEvent] at he
  split_ifs at he <;> simp only [Option.some.injEq] at he <;> first
    | exact absurd he (by simp)
    | (rw [← he]
       refine ⟨fun ht => ?_, fun ht => ?_⟩ <;> simp_all)

lemma runMidi_event_velocity (ops : List MidiOp) : ∀ (s : State) (e : MidiEvent),
    e ∈ (runMidi s ops).2 →
    (e.type = EventType.noteOff → e.velocity = 0) ∧
    (e.type = EventType.noteOn → e.velocity = s.config.hitVelocity) := by
  induction ops with
  | nil =>
    intro s e he
    simp [runMidi] at he
  | cons op rest ih =>
    intro s e he
    cases op with
    | hitState h off ts =>
      simp only [runMidi] at he
      rw [List.mem_append] at he
      rcases he with he | he
      · cases hstep : (processHitState s h off ts).2 with
        | none => rw [hstep] at he; simp at he
        | some ev =>
          rw [hstep] at he
          simp only [Option.toList, List.mem_singleton] at he
          rw [he]
          exact processHitState_event_velocity s h off ts ev hstep
      · have hrec := ih (processHitState s h off ts).1 e he
        rw [processHitState_config] at hrec
        exact hrec
    | pending cur =>
      simp only [runMidi] at he
      rw [List.mem_append] at he
      rcases he with he | he
      · cases hstep : (processPendingEvents s cur).2 with
        | none => rw [hstep] at he; simp at he
        | some ev =>
          rw [hstep] at he
          simp only [Option.toList, List.mem_singleton] at he
          rw [he]
          exact processPendingEvents_event_velocity s cur ev hstep
      · have hrec := ih (processPendingEvents s cur).1 e he
        rw [processPendingEvents_config] at hrec
        exact hrec

lemma runMidi_pending_none (curs : List ℤ) : ∀ s : State,
    s.noteOffScheduledAt < 0 →
    runMidi s (curs.map MidiOp.pending) = (s, []) := by
  induction curs with
  | nil => intro s _; rfl
  | cons c rest ih =>
    intro s hneg
    simp only [List.map_cons, runMidi]
    have hstep : processPendingEvents s c = (s, none) := by
      simp only [processPendingEvents]
      rw [if_neg (fun hcon => absurd hcon.1 (not_le.mpr hneg))]
    rw [hstep, ih s hneg]
    rfl

end MidiEventHandler

/-- C8: construction and `updateConfig` never fail; they store the validated
configuration, which replaces a note above 127 by 45, a velocity above 127 by
127 and a channel above 15 by 0, keeping all in-range values and all other
fields unchanged. -/
theorem C8_midiConfig_validation (c : MidiEventHandler.Config)
    (s : MidiEventHandler.State) :
    ((MidiEventHandler.init c).config = MidiEventHandler.validateMidiConfig c) ∧
    ((MidiEventHandler.updateConfig s c).config = MidiEventHandler.validateMidiConfig c) ∧
    ((MidiEventHandler.validateMidiConfig c).hitNote
        = if c.hitNote ≤ 127 then c.hitNote else 45) ∧
    ((MidiEventHandler.validateMidiConfig c).hitVelocity
        = if c.hitVelocity ≤ 127 then c.hitVelocity else 127) ∧
    ((MidiEventHandler.validateMidiConfig c).channel
        = if c.channel ≤ 15 then c.channel else 0) ∧
    ((MidiEventHandler.validateMidiConfig c).sendNoteOff = c.sendNoteOff) ∧
    ((MidiEventHandler.validateMidiConfig c).noteOffDelay = c.noteOffDelay) ∧
    ((MidiEventHandler.validateMidiConfig c).useHostTimeStamp = c.useHostTimeStamp) := by
  refine ⟨rfl, rfl, ?_, ?_, ?_, rfl, rfl, rfl⟩ <;>
    simp [MidiEventHandler.validateMidiConfig, MidiEventHandler.isValidMidiNote,
      MidiEventHandler.isValidMidiVelocity, MidiEventHandler.isValidMidiChannel]

/-- C9: in every run of the handler, every emitted note-off event carries
velocity 0, and every emitted note-on event carries the configured hit
velocity. -/
theorem C9_noteOff_velocity_zero (cfg : MidiEventHandler.Config)
    (ops : List MidiEventHandler.MidiOp) (e : MidiEventHandler.MidiEvent)
    (he : e ∈ (MidiEventHandler.runMidi (MidiEventHandler.init cfg) ops).2) :
    (e.type = MidiEventHandler.EventType.noteOff → e.velocity = 0) ∧
    (e.type = MidiEventHandler.EventType.noteOn →
      e.velocity = (MidiEventHandler.validateMidiConfig cfg).hitVelocity) :=
  MidiEventHandler.runMidi_event_velocity ops (MidiEventHandler.init cfg) e he

/-- C9 witness: the note-on and note-off emitted by a simple hit cycle under
the default configuration with immediate note-off carry velocities 127 and 0. -/
theorem C9_noteOff_velocity_zero_witness :
    (({ type := MidiEventHandler.EventType.noteOff, channel := 0, note := 45,
          velocity := 0, sampleOffset := 10, hostTimeStamp := 0
          } : MidiEventHandler.MidiEvent).type = MidiEventHandler.EventType.noteOff →
      ({ type := MidiEventHandler.EventType.noteOff, channel := 0, note := 45,
          velocity := 0, sampleOffset := 10, hostTimeStamp := 0
          } : MidiEventHandler.MidiEvent).velocity = 0) ∧
    (({ type := MidiEventHandler.EventType.noteOff, channel := 0, note := 45,
          velocity := 0, sampleOffset := 10, hostTimeStamp := 0
          } : MidiEventHandler.MidiEvent).type = MidiEventHandler.EventType.noteOn →
      ({ type := MidiEventHandler.EventType.noteOff, channel := 0, note := 45,
          velocity := 0, sampleOffset := 10, hostTimeStamp := 0
          } : MidiEventHandler.MidiEvent).velocity
        = (MidiEventHandler.validateMidiConfig
            { noteOffDelay := 0 }).hitVelocity) :=
  C9_noteOff_velocity_zero { noteOffDelay := 0 }
    [MidiEventHandler.MidiOp.hitState true 0 0,
     MidiEventHandler.MidiOp.hitState false 10 0]
    { type := MidiEventHandler.EventType.noteOff, channel := 0, note := 45,
      velocity := 0, sampleOffset := 10, hostTimeStamp := 0 }
    (by decide)

/-- C3 counterexample: under the default configuration (delayed note-off,
`noteOffDelay = 100`), the call sequence hit-start, hit-end, hit-start presents
two false-to-true transitions to the handler but emits only one note-on — the
second hit-start arrives while the note is still sounding (a delayed note-off
is pending) and emits nothing, so the claimed equality fails. -/
theorem C3_counterexample_retrigger_during_pending :
    MidiEventHandler.countNoteOn
      (MidiEventHandler.runMidi (MidiEventHandler.init {})
        [MidiEventHandler.MidiOp.hitState true 0 0,
         MidiEventHandler.MidiOp.hitState false 10 0,
         MidiEventHandler.MidiOp.hitState true 20 0]).2 = 1 ∧
    MidiEventHandler.hitStartsObserved false
      [MidiEventHandler.MidiOp.hitState true 0 0,
       MidiEventHandler.MidiOp.hitState false 10 0,
       MidiEventHandler.MidiOp.hitState true 20 0] = 2 := by
  decide

/-- C3 amended: with note-off sending enabled, the emitted events are exactly
balanced: after any sequence of calls the number of note-on events equals the
number of note-off events plus one exactly when a note is still sounding —
never more, never fewer.  The per-transition equality of the original claim
holds only for transitions that find no note sounding: a false-to-true
transition during a pending delayed note-off emits no note-on. -/
theorem C3_amended_event_counts_balanced (cfg : MidiEventHandler.Config)
    (ops : List MidiEventHandler.MidiOp) (hsend : cfg.sendNoteOff = true) :
    MidiEventHandler.countNoteOn
        (MidiEventHandler.runMidi (MidiEventHandler.init cfg) ops).2
      = MidiEventHandler.countNoteOff
          (MidiEventHandler.runMidi (MidiEventHandler.init cfg) ops).2
        + (if (MidiEventHandler.runMidi (MidiEventHandler.init cfg) ops).1.noteIsOn = true
           then 1 else 0) ∧
    MidiEventHandler.countNoteOff
        (MidiEventHandler.runMidi (MidiEventHandler.init cfg) ops).2
      ≤ MidiEventHandler.countNoteOn
          (MidiEventHandler.runMidi (MidiEventHandler.init cfg) ops).2 := by
  have hsend2 : (MidiEventHandler.init cfg).config.sendNoteOff = true := hsend
  have hsched0 : 0 ≤ (MidiEventHandler.init cfg).noteOffScheduledAt →
      (MidiEventHandler.init cfg).noteIsOn = true := by
    intro hcon
    have hx : (0:ℤ) ≤ -1 := hcon
    omega
  have hdelay0 : (MidiEventHandler.init cfg).config.noteOffDelay ≤ 0 →
      (MidiEventHandler.init cfg).noteOffScheduledAt < 0 := by
    intro _
    show (-1:ℤ) < 0
    omega
  have h := MidiEventHandler.runMidi_balance ops (MidiEventHandler.init cfg)
    hsend2 hsched0 hdelay0
  have hib : (if (MidiEventHandler.init cfg).noteIsOn = true then 1 else 0) = 0 := by
    rfl
  rw [hib] at h
  omega

/-- C3 witness: the balance holds on the retrigger-during-pending sequence of
the counterexample; one note-on, no note-off, note still sounding. -/
theorem C3_amended_event_counts_balanced_witness :
    MidiEventHandler.countNoteOn
        (MidiEventHandler.runMidi (MidiEventHandler.init {})
          [MidiEventHandler.MidiOp.hitState true 0 0,
           MidiEventHandler.MidiOp.hitState false 10 0,
           MidiEventHandler.MidiOp.hitState true 20 0,
           MidiEventHandler.MidiOp.pending 200]).2
      = MidiEventHandler.countNoteOff
          (MidiEventHandler.runMidi (MidiEventHandler.init {})
            [MidiEventHandler.MidiOp.hitState true 0 0,
             MidiEventHandler.MidiOp.hitState false 10 0,
             MidiEventHandler.MidiOp.hitState true 20 0,
             MidiEventHandler.MidiOp.pending 200]).2
        + (if (MidiEventHandler.runMidi (MidiEventHandler.init {})
              [MidiEventHandler.MidiOp.hitState true 0 0,
               MidiEventHandler.MidiOp.hitState false 10 0,
               MidiEventHandler.MidiOp.hitState true 20 0,
               MidiEventHandler.MidiOp.pending 200]).1.noteIsOn = true
           then 1 else 0) ∧
    MidiEventHandler.countNoteOff
        (MidiEventHandler.runMidi (MidiEventHandler.init {})
          [MidiEventHandler.MidiOp.hitState true 0 0,
           MidiEventHandler.MidiOp.hitState false 10 0,
           MidiEventHandler.MidiOp.hitState true 20 0,
           MidiEventHandler.MidiOp.pending 200]).2
      ≤ MidiEventHandler.countNoteOn
          (MidiEventHandler.runMidi (MidiEventHandler.init {})
            [MidiEventHandler.MidiOp.hitState true 0 0,
             MidiEventHandler.MidiOp.hitState false 10 0,
             MidiEventHandler.MidiOp.hitState true 20 0,
             MidiEventHandler.MidiOp.pending 200]).2 :=
  C3_amended_event_counts_balanced {}
    [MidiEventHandler.MidiOp.hitState true 0 0,
     MidiEventHandler.MidiOp.hitState false 10 0,
     MidiEventHandler.MidiOp.hitState true 20 0,
     MidiEventHandler.MidiOp.pending 200] rfl

/-- C7 counterexample: a hit-end at sample offset -200 under the default
100-sample delay schedules the note-off at position P = -100; the first call
of `processPendingEvents` at -100 (and any later call) returns no event and
never clears the schedule, because the code treats a negative scheduled
position as the no-schedule sentinel — contradicting the claim that the first
call with `currentSampleOffset ≥ P` returns exactly one note-off. -/
theorem C7_counterexample_negative_schedule_never_fires :
    ((MidiEventHandler.processHitState
        (MidiEventHandler.processHitState (MidiEventHandler.init {}) true 0 0).1
        false (-200) 0).1.noteOffScheduledAt = -100) ∧
    ((MidiEventHandler.processPendingEvents
        (MidiEventHandler.processHitState
          (MidiEventHandler.processHitState (MidiEventHandler.init {}) true 0 0).1
          false (-200) 0).1 (-100)).2 = none) ∧
    ((MidiEventHandler.processPendingEvents
        (MidiEventHandler.processHitState
          (MidiEventHandler.processHitState (MidiEventHandler.init {}) true 0 0).1
          false (-200) 0).1 1000).2 = none) := by
  decide

/-- C7 amended: provided the scheduled note-off position P is nonnegative
(which holds for every schedule created from a nonnegative hit-end sample
offset, since the delay is positive), every `processPendingEvents` call before
P returns no event and leaves the schedule in place, the first call at or
after P returns exactly one note-off (velocity 0) and clears the schedule,
and no subsequent pending-event call emits anything further. -/
theorem C7_amended_pending_fires_exactly_once (s : MidiEventHandler.State)
    (cur : ℤ) (hP : 0 ≤ s.noteOffScheduledAt) :
    (cur < s.noteOffScheduledAt →
      MidiEventHandler.processPendingEvents s cur = (s, none)) ∧
    (s.noteOffScheduledAt ≤ cur →
      ((MidiEventHandler.processPendingEvents s cur).2
          = some { type := MidiEventHandler.EventType.noteOff,
                   channel := s.config.channel,
                   note := s.config.hitNote,
                   velocity := 0,
                   sampleOffset := cur,
                   hostTimeStamp :=
                     if s.config.useHostTimeStamp then s.lastEventTimeStamp else 0 } ∧
       (MidiEventHandler.processPendingEvents s cur).1.noteOffScheduledAt = -1 ∧
       ∀ curs : List ℤ,
         (MidiEventHandler.runMidi (MidiEventHandler.processPendingEvents s cur).1
            (curs.map MidiEventHandler.MidiOp.pending)).2 = [])) := by
  constructor
  · intro hlt
    simp only [MidiEventHandler.processPendingEvents]
    rw [if_neg (fun hcon => absurd hcon.2 (not_le.mpr hlt))]
  · intro hle
    have hfire : MidiEventHandler.processPendingEvents s cur
        = ({ (MidiEventHandler.createEvent s MidiEventHandler.EventType.noteOff cur
                s.lastEventTimeStamp).1 with
              noteIsOn := false, noteOffScheduledAt := -1 },
           some (MidiEventHandler.createEvent s MidiEventHandler.EventType.noteOff cur
                s.lastEventTimeStamp).2) := by
      simp only [MidiEventHandler.processPendingEvents]
      rw [if_pos ⟨hP, hle⟩]
    refine ⟨?_, ?_, ?_⟩
    · rw [hfire]
      rfl
    · rw [hfire]
    · intro curs
      rw [MidiEventHandler.runMidi_pending_none curs _ ?_]
      rw [hfire]
      show (-1:ℤ) < 0
      omega

/-- C7 witness: a schedule at position 50 does not fire at 49; at 60 it fires
exactly once with a velocity-0 note-off, clears the schedule, and two later
pending calls emit nothing. -/
theorem C7_amended_pending_fires_exactly_once_witness :
    (MidiEventHandler.processPendingEvents
        { config := {}, lastHitState := true, noteIsOn := true,
          noteOffScheduledAt := 50, lastEventTimeStamp := 7, stats := {} } 49
      = ({ config := {}, lastHitState := true, noteIsOn := true,
           noteOffScheduledAt := 50, lastEventTimeStamp := 7, stats := {} }, none)) ∧
    ((MidiEventHandler.processPendingEvents
        { config := {}, lastHitState := true, noteIsOn := true,
          noteOffScheduledAt := 50, lastEventTimeStamp := 7, stats := {} } 60).2
      = some { type := MidiEventHandler.EventType.noteOff, channel := 0,
               note := 45, velocity := 0, sampleOffset := 60, hostTimeStamp := 7 }) ∧
    ((MidiEventHandler.processPendingEvents
        { config := {}, lastHitState := true, noteIsOn := true,
          noteOffScheduledAt := 50, lastEventTimeStamp := 7, stats := {} }
        60).1.noteOffScheduledAt = -1) ∧
    ((MidiEventHandler.runMidi
        (MidiEventHandler.processPendingEvents
          { config := {}, lastHitState := true, noteIsOn := true,
            noteOffScheduledAt := 50, lastEventTimeStamp := 7, stats := {} } 60).1
        ([70, 80].map MidiEventHandler.MidiOp.pending)).2 = []) :=
  ⟨(C7_amended_pending_fires_exactly_once
      { config := {}, lastHitState := true, noteIsOn := true,
        noteOffScheduledAt := 50, lastEventTimeStamp := 7, stats := {} }
      49 (by decide)).1 (by decide),
   ((C7_amended_pending_fires_exactly_once
      { config := {}, lastHitState := true, noteIsOn := true,
        noteOffScheduledAt := 50, lastEventTimeStamp := 7, stats := {} }
      60 (by decide)).2 (by decide)).1,
   ((C7_amended_pending_fires_exactly_once
      { config := {}, lastHitState := true, noteIsOn := true,
        noteOffScheduledAt := 50, lastEventTimeStamp := 7, stats := {} }
      60 (by decide)).2 (by decide)).2.1,
   ((C7_amended_pending_fires_exactly_once
      { config := {}, lastHitState := true, noteIsOn := true,
        noteOffScheduledAt := 50, lastEventTimeStamp := 7, stats := {} }
      60 (by decide)).2 (by decide)).2.2 [70, 80]⟩

end KhDetector
